import Mathlib

/-!
# Verification of the Polymarket mirror bot core (src/main.py)

Shallow embedding of the bot's algorithmic core:

* `calculate_bet_size` — the Kelly-based sizing function of `RiskManager`;
* `calculate_score` — the trade-history scorer of `TribunalScorer`;
* `watchlistApprove` — the watchlist insertion/eviction step of `DiscoveryEngine.run`;
* `markToMarket` / `openPosition` — the position update and creation of `DiscoveryEngine.run`.

Python floats are modelled by exact arithmetic: rationals wherever the source
only adds, multiplies and divides, reals where the source takes a square root
(`pandas.Series.std`).  `round(x, n)` is modelled faithfully as rounding half to
even.  A `pandas` sample standard deviation of fewer than two values is `NaN`;
`NaN` is modelled as `Option.none`, and the source's `downside > 0` guard, which
is false on `NaN`, becomes a `match` that sends `none` to the `else` branch.
-/

/-- Nearest-integer rounding with ties to even, the semantics of Python's
builtin `round`. -/
def roundHalfEven {α : Type} [LinearOrderedField α] [FloorRing α] (x : α) : ℤ :=
  if Int.fract x < 1/2 then ⌊x⌋
  else if Int.fract x = 1/2 then (if Even ⌊x⌋ then ⌊x⌋ else ⌊x⌋ + 1)
  else ⌊x⌋ + 1

/-- Python's `round(x, 2)`. -/
def round2 {α : Type} [LinearOrderedField α] [FloorRing α] (x : α) : α :=
  (roundHalfEven (x * 100) : α) / 100

/-- Python's `round(x, 4)`. -/
def round4 {α : Type} [LinearOrderedField α] [FloorRing α] (x : α) : α :=
  (roundHalfEven (x * 10000) : α) / 10000

theorem roundHalfEven_intCast {α : Type} [LinearOrderedField α] [FloorRing α] (n : ℤ) :
    roundHalfEven ((n : α)) = n := by
  unfold roundHalfEven
  rw [Int.fract_intCast]
  norm_num

theorem round2_intCast {α : Type} [LinearOrderedField α] [FloorRing α] (n : ℤ) :
    round2 ((n : α)) = n := by
  unfold round2
  rw [show ((n : α) * 100) = (((n * 100 : ℤ)) : α) by push_cast; ring,
    roundHalfEven_intCast]
  push_cast
  rw [mul_div_assoc]
  norm_num

theorem round4_intCast {α : Type} [LinearOrderedField α] [FloorRing α] (n : ℤ) :
    round4 ((n : α)) = n := by
  unfold round4
  rw [show ((n : α) * 10000) = (((n * 10000 : ℤ)) : α) by push_cast; ring,
    roundHalfEven_intCast]
  push_cast
  rw [mul_div_assoc]
  norm_num

theorem roundHalfEven_le {α : Type} [LinearOrderedField α] [FloorRing α]
    {x : α} {m : ℤ} (h : x ≤ (m : α)) : roundHalfEven x ≤ m := by
  have hfloor : ⌊x⌋ ≤ m := by
    have := Int.floor_le_floor h
    rwa [Int.floor_intCast] at this
  have hsucc : 0 < Int.fract x → ⌊x⌋ + 1 ≤ m := by
    intro hpos
    have hlt : ((⌊x⌋ : α)) < (m : α) := by
      have hx : ((⌊x⌋ : α)) + Int.fract x = x := Int.floor_add_fract x
      have : ((⌊x⌋ : α)) < x := by linarith
      exact lt_of_lt_of_le this h
    exact Int.add_one_le_iff.mpr (by exact_mod_cast hlt)
  unfold roundHalfEven
  split
  · exact hfloor
  · split
    · split
      · exact hfloor
      · rename_i hlt heq _
        exact hsucc (by rw [heq]; norm_num)
    · rename_i hlt heq
      have : (1:α)/2 < Int.fract x := lt_of_le_of_ne (not_lt.mp hlt) (by
        intro hc
        exact heq hc.symm)
      exact hsucc (by linarith)

theorem round2_le_intCast {α : Type} [LinearOrderedField α] [FloorRing α]
    {x : α} {m : ℤ} (h : x ≤ (m : α)) : round2 x ≤ (m : α) := by
  unfold round2
  rw [div_le_iff (by norm_num : (0:α) < 100)]
  have hx : x * 100 ≤ (((m * 100 : ℤ)) : α) := by
    push_cast
    nlinarith
  have := roundHalfEven_le hx
  calc ((roundHalfEven (x * 100) : ℤ) : α) ≤ (((m * 100 : ℤ)) : α) := by exact_mod_cast this
    _ = (m : α) * 100 := by push_cast; ring

/-! ## RiskManager (src/main.py lines 118-131) -/

/-- `self.KELLY_FRACTION = 0.5`. -/
def KELLY_FRACTION : ℚ := 1/2

/-- `self.MAX_BANKROLL_PCT = 0.20`. -/
def MAX_BANKROLL_PCT : ℚ := 1/5

/-- `RiskManager.calculate_bet_size`, translated line by line. -/
def calculate_bet_size (bankroll win_prob odds : ℚ) : ℚ :=
  let b := odds - 1
  if b ≤ 0 then 0
  else
    let p := win_prob
    let q := 1 - p
    let kelly_pct := (b * p - q) / b
    let safe_pct := kelly_pct * KELLY_FRACTION
    let final_pct := min safe_pct MAX_BANKROLL_PCT
    max 0 (bankroll * final_pct)

/-- Claim C5: for every positive bankroll, every win probability in `[0,1]` and
every decimal odds, the bet size is non-negative and at most
`bankroll * MAX_BANKROLL_PCT` (20% of bankroll). -/
theorem calculate_bet_size_bounds (bankroll win_prob odds : ℚ)
    (hb : 0 < bankroll) (h0 : 0 ≤ win_prob) (h1 : win_prob ≤ 1) :
    0 ≤ calculate_bet_size bankroll win_prob odds ∧
    calculate_bet_size bankroll win_prob odds ≤ bankroll * MAX_BANKROLL_PCT := by
  unfold calculate_bet_size
  by_cases hob : odds - 1 ≤ 0
  · simp only [hob, if_true]
    constructor
    · norm_num
    · have : 0 ≤ bankroll * MAX_BANKROLL_PCT := by
        unfold MAX_BANKROLL_PCT
        positivity
      simpa using this
  · simp only [hob, if_false]
    constructor
    · exact le_max_left 0 _
    · apply max_le
      · unfold MAX_BANKROLL_PCT
        positivity
      · apply mul_le_mul_of_nonneg_left (min_le_right _ _) hb.le

/-- Claim C5 witness: the spec's worked example, `bankroll = 10000`,
`win_prob = 0.6`, `odds = 2.0`. -/
theorem calculate_bet_size_bounds_witness :
    0 < (10000:ℚ) ∧ 0 ≤ (3/5:ℚ) ∧ (3/5:ℚ) ≤ 1 ∧
    (0 ≤ calculate_bet_size 10000 (3/5) 2 ∧
      calculate_bet_size 10000 (3/5) 2 ≤ 10000 * MAX_BANKROLL_PCT) :=
  ⟨by norm_num, by norm_num, by norm_num,
    calculate_bet_size_bounds 10000 (3/5) 2 (by norm_num) (by norm_num) (by norm_num)⟩

/-- Claim C6: for fixed positive bankroll and fixed odds with `odds - 1 > 0`,
the bet size is non-decreasing in the win probability. -/
theorem calculate_bet_size_mono (bankroll odds p1 p2 : ℚ)
    (hb : 0 < bankroll) (hob : 0 < odds - 1)
    (hp0 : 0 ≤ p1) (hpp : p1 ≤ p2) (hp1 : p2 ≤ 1) :
    calculate_bet_size bankroll p1 odds ≤ calculate_bet_size bankroll p2 odds := by
  unfold calculate_bet_size
  simp only [not_le.mpr hob, if_false]
  apply max_le_max le_rfl
  apply mul_le_mul_of_nonneg_left _ hb.le
  apply min_le_min _ le_rfl
  apply mul_le_mul_of_nonneg_right _ (by norm_num [KELLY_FRACTION])
  rw [div_le_div_iff_of_pos_right hob]
  nlinarith

/-- Claim C6 witness: at `bankroll = 10000`, `odds = 2`, the size at
`win_prob = 0.5` is at most the size at `win_prob = 0.6`. -/
theorem calculate_bet_size_mono_witness :
    0 < (10000:ℚ) ∧ 0 < (2:ℚ) - 1 ∧ 0 ≤ (1/2:ℚ) ∧ (1/2:ℚ) ≤ 3/5 ∧ (3/5:ℚ) ≤ 1 ∧
    calculate_bet_size 10000 (1/2) 2 ≤ calculate_bet_size 10000 (3/5) 2 :=
  ⟨by norm_num, by norm_num, by norm_num, by norm_num, by norm_num,
    calculate_bet_size_mono 10000 2 (1/2) (3/5)
      (by norm_num) (by norm_num) (by norm_num) (by norm_num) (by norm_num)⟩

/-! ## TribunalScorer (src/main.py lines 134-148) -/

/-- One record of a candidate's trade history. -/
structure TradeRecord where
  entry_price : ℚ
  exit_price : ℚ
  size : ℚ
deriving DecidableEq

/-- `df['pnl'] = (df['exit_price'] - df['entry_price']) * df['size']`. -/
def pnl_of (t : TradeRecord) : ℚ := (t.exit_price - t.entry_price) * t.size

/-- `df['roi'] = (df['exit_price'] - df['entry_price']) / df['entry_price']`. -/
def roi_of (t : TradeRecord) : ℚ := (t.exit_price - t.entry_price) / t.entry_price

/-- The `roi` column of the history. -/
def rois (hs : List TradeRecord) : List ℚ := hs.map roi_of

/-- `total_vol = df['size'].sum()`. -/
def total_vol (hs : List TradeRecord) : ℚ := (hs.map TradeRecord.size).sum

/-- `total_pnl = df['pnl'].sum()`. -/
def total_pnl (hs : List TradeRecord) : ℚ := (hs.map pnl_of).sum

/-- `wash_ratio = total_vol / (abs(total_pnl) + 1)`. -/
def wash_ratio (hs : List TradeRecord) : ℚ := total_vol hs / (|total_pnl hs| + 1)

/-- `neg_ret = df[df['roi'] < 0]['roi']`. -/
def neg_ret (hs : List TradeRecord) : List ℚ := (rois hs).filter (fun r => r < 0)

/-- `pandas.Series.mean`. -/
def meanQ (xs : List ℚ) : ℚ := xs.sum / xs.length

/-- The sample variance (`ddof = 1`) underlying `pandas.Series.std`. -/
def sampleVarQ (xs : List ℚ) : ℚ :=
  (xs.map (fun x => (x - meanQ xs) ^ 2)).sum / ((xs.length : ℚ) - 1)

/-- `pandas.Series.std`: sample standard deviation with `ddof = 1`; on fewer
than two values it is `NaN`, modelled as `none`. -/
noncomputable def sampleStd (xs : List ℚ) : Option ℝ :=
  if xs.length ≤ 1 then none else some (Real.sqrt ((sampleVarQ xs : ℚ) : ℝ))

/-- `downside = neg_ret.std() if len(neg_ret) > 0 else 0.01`. -/
noncomputable def downside (hs : List TradeRecord) : Option ℝ :=
  if 0 < (neg_ret hs).length then sampleStd (neg_ret hs) else some (1/100)

/-- `sortino = df['roi'].mean() / downside if downside > 0 else 0`.  A `NaN`
downside (`none`) fails the `downside > 0` comparison, so it also yields 0. -/
noncomputable def sortino (hs : List TradeRecord) : ℝ :=
  match downside hs with
  | none => 0
  | some d => if 0 < d then ((meanQ (rois hs) : ℚ) : ℝ) / d else 0

/-- The result dictionary of `TribunalScorer.calculate_score`. -/
structure ScoreResult where
  score : ℝ
  status : String

/-- `TribunalScorer.calculate_score`, translated line by line. -/
noncomputable def calculate_score (hs : List TradeRecord) : ScoreResult :=
  if hs = [] then ⟨0, "NO_DATA"⟩
  else if 500 < wash_ratio hs then ⟨0, "REJECTED_WASH_TRADING"⟩
  else
    let raw_score : ℝ := min (sortino hs) 3 / 3 * 60 + 40
    ⟨round2 raw_score, if 70 < raw_score then "APPROVED" else "REJECTED"⟩

/-- Claim C3 counterexample: on the empty history the scorer's status string is
`"NO_DATA"`, not `"INSUFFICIENT_DATA"` as the claim names it. -/
theorem empty_history_status_counterexample :
    (calculate_score []).status ≠ "INSUFFICIENT_DATA" := by
  simp [calculate_score]

/-- Claim C3 (amended): the empty history returns score 0 and status
`"NO_DATA"` (the code's name for insufficient data), with no further
computation. -/
theorem empty_history_result : calculate_score [] = ⟨0, "NO_DATA"⟩ := by
  simp [calculate_score]

/-- Claim C4: any non-empty history whose wash ratio exceeds 500 is rejected as
wash trading with score 0, independent of all other metrics. -/
theorem wash_rejection (hs : List TradeRecord) (hne : hs ≠ [])
    (hw : 500 < wash_ratio hs) :
    calculate_score hs = ⟨0, "REJECTED_WASH_TRADING"⟩ := by
  unfold calculate_score
  rw [if_neg hne, if_pos hw]

/-- A flat trade: entry 0.5, exit 0.5, size 1000. -/
def flatTrade : TradeRecord := ⟨1/2, 1/2, 1000⟩

/-- Ten flat trades, the spec's wash-trading example. -/
def flat10 : List TradeRecord :=
  [flatTrade, flatTrade, flatTrade, flatTrade, flatTrade,
   flatTrade, flatTrade, flatTrade, flatTrade, flatTrade]

/-- Claim C4 witness: ten flat trades (entry 0.5, exit 0.5, size 1000) have
wash ratio 10000 > 500 and are rejected as wash trading. -/
theorem wash_rejection_witness :
    flat10 ≠ [] ∧ 500 < wash_ratio flat10 ∧
    calculate_score flat10 = ⟨0, "REJECTED_WASH_TRADING"⟩ := by
  have hne : flat10 ≠ [] := by simp [flat10]
  have hw : 500 < wash_ratio flat10 := by
    norm_num [wash_ratio, total_vol, total_pnl, pnl_of, flat10, flatTrade]
  exact ⟨hne, hw, wash_rejection flat10 hne hw⟩

/-- Claim C1 (amended): the alpha score never exceeds 100.  (The claimed lower
bound 0 is false: the raw score `min(sortino,3)/3*60+40` has no lower clamp.) -/
theorem alpha_score_le_100 (hs : List TradeRecord)
    (hpos : ∀ t ∈ hs, 0 < t.entry_price ∧ 0 < t.exit_price ∧ 0 < t.size) :
    (calculate_score hs).score ≤ 100 := by
  unfold calculate_score
  split
  · norm_num
  · split
    · norm_num
    · show round2 (min (sortino hs) 3 / 3 * 60 + 40) ≤ 100
      have hraw : min (sortino hs) 3 / 3 * 60 + 40 ≤ ((100 : ℤ) : ℝ) := by
        have h1 : min (sortino hs) 3 ≤ 3 := min_le_right _ _
        push_cast
        linarith
      have := round2_le_intCast hraw
      calc round2 (min (sortino hs) 3 / 3 * 60 + 40) ≤ ((100 : ℤ) : ℝ) := this
        _ = 100 := by norm_num

/-- Three slightly different losing trades with rois −0.41, −0.40, −0.39. -/
def ex1 : List TradeRecord := [⟨1, 59/100, 1⟩, ⟨1, 3/5, 1⟩, ⟨1, 61/100, 1⟩]

theorem ex1_wash : ¬ 500 < wash_ratio ex1 := by
  have hv : total_vol ex1 = 3 := by norm_num [total_vol, ex1]
  have hp : total_pnl ex1 = -6/5 := by norm_num [total_pnl, pnl_of, ex1]
  have habs : |total_pnl ex1| = 6/5 := by
    rw [hp, abs_of_neg (by norm_num)]
    norm_num
  rw [wash_ratio, hv, habs]
  norm_num

theorem ex1_neg_ret : neg_ret ex1 = [-41/100, -2/5, -39/100] := by
  norm_num [neg_ret, rois, roi_of, ex1, List.filter]

theorem ex1_downside : downside ex1 = some ((1/100 : ℝ)) := by
  unfold downside sampleStd
  rw [ex1_neg_ret,
    show sampleVarQ [-41/100, -2/5, -39/100] = 1/10000 by norm_num [sampleVarQ, meanQ],
    show (((1/10000 : ℚ) : ℝ)) = (1/100 : ℝ)^2 by push_cast; norm_num,
    Real.sqrt_sq (by norm_num : (0:ℝ) ≤ 1/100)]
  norm_num

theorem ex1_sortino : sortino ex1 = -40 := by
  have hmean : meanQ (rois ex1) = -2/5 := by
    norm_num [meanQ, rois, roi_of, ex1]
  unfold sortino
  rw [ex1_downside]
  show (if 0 < (1/100 : ℝ) then ((meanQ (rois ex1) : ℚ) : ℝ) / (1/100) else 0) = -40
  rw [if_pos (by norm_num : (0:ℝ) < (1/100:ℝ)), hmean]
  push_cast
  norm_num

theorem ex1_score : (calculate_score ex1).score = -760 := by
  unfold calculate_score
  rw [if_neg (by simp [ex1] : ¬ ex1 = []), if_neg ex1_wash]
  show round2 (min (sortino ex1) 3 / 3 * 60 + 40) = -760
  rw [ex1_sortino, min_eq_left (by norm_num : (-40:ℝ) ≤ 3),
    show ((-40:ℝ)/3*60+40) = ((-760 : ℤ) : ℝ) by push_cast; ring,
    round2_intCast]
  norm_num

/-- Claim C1 counterexample: a history of three positive-price, positive-size
trades whose score is −760, far outside `[0, 100]`. -/
theorem alpha_score_counterexample :
    (∀ t ∈ ex1, 0 < t.entry_price ∧ 0 < t.exit_price ∧ 0 < t.size) ∧
    ¬ (0 ≤ (calculate_score ex1).score ∧ (calculate_score ex1).score ≤ 100) := by
  constructor
  · intro t ht
    simp only [ex1, List.mem_cons, List.not_mem_nil, or_false] at ht
    rcases ht with h | h | h <;> subst h <;> norm_num
  · rw [ex1_score]
    norm_num

/-- Claim C1 (amended) witness: the three-trade history `ex1` has positive
entries and its score is at most 100. -/
theorem alpha_score_le_100_witness :
    (∀ t ∈ ex1, 0 < t.entry_price ∧ 0 < t.exit_price ∧ 0 < t.size) ∧
    (calculate_score ex1).score ≤ 100 := by
  have hpos : ∀ t ∈ ex1, 0 < t.entry_price ∧ 0 < t.exit_price ∧ 0 < t.size := by
    intro t ht
    simp only [ex1, List.mem_cons, List.not_mem_nil, or_false] at ht
    rcases ht with h | h | h <;> subst h <;> norm_num
  exact ⟨hpos, alpha_score_le_100 ex1 hpos⟩

/-- The skill-score formula exactly as the spec words it:
`clamp(sortino, 0, 3) / 3 × 100`. -/
noncomputable def specSkillScore (hs : List TradeRecord) : ℝ :=
  min (max (sortino hs) 0) 3 / 3 * 100

/-- A single winning trade with roi 0.01. -/
def ex2 : List TradeRecord := [⟨1, 101/100, 1⟩]

theorem ex2_wash : ¬ 500 < wash_ratio ex2 := by
  have hp : total_pnl ex2 = 1/100 := by norm_num [total_pnl, pnl_of, ex2]
  have habs : |total_pnl ex2| = 1/100 := by
    rw [hp, abs_of_pos (by norm_num)]
  rw [wash_ratio, habs]
  norm_num [total_vol, ex2]

theorem ex2_downside : downside ex2 = some ((1/100 : ℝ)) := by
  unfold downside
  rw [show neg_ret ex2 = [] by norm_num [neg_ret, rois, roi_of, ex2, List.filter]]
  norm_num

theorem ex2_sortino : sortino ex2 = 1 := by
  have hmean : meanQ (rois ex2) = 1/100 := by
    norm_num [meanQ, rois, roi_of, ex2]
  unfold sortino
  rw [ex2_downside]
  show (if 0 < (1/100 : ℝ) then ((meanQ (rois ex2) : ℚ) : ℝ) / (1/100) else 0) = 1
  rw [if_pos (by norm_num : (0:ℝ) < (1/100:ℝ)), hmean]
  push_cast
  norm_num

theorem ex2_score : (calculate_score ex2).score = 60 := by
  unfold calculate_score
  rw [if_neg (by simp [ex2] : ¬ ex2 = []), if_neg ex2_wash]
  show round2 (min (sortino ex2) 3 / 3 * 60 + 40) = 60
  rw [ex2_sortino, min_eq_left (by norm_num : (1:ℝ) ≤ 3),
    show ((1:ℝ)/3*60+40) = ((60 : ℤ) : ℝ) by push_cast; ring,
    round2_intCast]
  norm_num

/-- Claim C2 counterexample: a single trade with roi 0.01 passes the wash
check; the code's score is 60 while the claimed formula
`clamp(sortino,0,3)/3 × 100` evaluates to 100/3. -/
theorem skill_formula_counterexample :
    ex2 ≠ [] ∧ ¬ 500 < wash_ratio ex2 ∧
    (calculate_score ex2).score = 60 ∧ specSkillScore ex2 = 100/3 ∧
    (calculate_score ex2).score ≠ specSkillScore ex2 := by
  refine ⟨by simp [ex2], ex2_wash, ex2_score, ?_, ?_⟩
  · unfold specSkillScore
    rw [ex2_sortino, max_eq_left (by norm_num : (0:ℝ) ≤ 1),
      min_eq_left (by norm_num : (1:ℝ) ≤ 3)]
    norm_num
  · rw [ex2_score]
    unfold specSkillScore
    rw [ex2_sortino, max_eq_left (by norm_num : (0:ℝ) ≤ 1),
      min_eq_left (by norm_num : (1:ℝ) ≤ 3)]
    norm_num

/-- Claim C2 (amended): for every non-empty history passing the wash check, the
score is `round(min(sortino, 3) / 3 × 60 + 40, 2)`, where `sortino` is
`mean(roi)` over the sample standard deviation of the negative rois (floor 0.01
when none is negative, undefined — yielding sortino 0 — when exactly one is). -/
theorem score_formula_amended (hs : List TradeRecord) (hne : hs ≠ [])
    (hw : ¬ 500 < wash_ratio hs) :
    (calculate_score hs).score = round2 (min (sortino hs) 3 / 3 * 60 + 40) := by
  unfold calculate_score
  rw [if_neg hne, if_neg hw]

/-- Claim C2 (amended) witness: the single-trade history `ex2`. -/
theorem score_formula_amended_witness :
    ex2 ≠ [] ∧ ¬ 500 < wash_ratio ex2 ∧
    (calculate_score ex2).score = round2 (min (sortino ex2) 3 / 3 * 60 + 40) :=
  ⟨by simp [ex2], ex2_wash, score_formula_amended ex2 (by simp [ex2]) ex2_wash⟩

/-- Claim C9: when exactly one roi is negative (and the wash check passes on a
non-empty history), the one-element sample standard deviation is undefined, the
`downside > 0` guard fails, sortino is 0, and the result is score 40,
status `"REJECTED"`, whatever the mean roi is. -/
theorem single_loss_scores_forty (hs : List TradeRecord) (hne : hs ≠ [])
    (hw : ¬ 500 < wash_ratio hs) (hone : (neg_ret hs).length = 1) :
    calculate_score hs = ⟨40, "REJECTED"⟩ := by
  have hdd : downside hs = none := by
    unfold downside sampleStd
    rw [hone]
    norm_num
  have hs0 : sortino hs = 0 := by
    unfold sortino
    rw [hdd]
  unfold calculate_score
  rw [if_neg hne, if_neg hw]
  show ScoreResult.mk (round2 (min (sortino hs) 3 / 3 * 60 + 40))
      (if 70 < min (sortino hs) 3 / 3 * 60 + 40 then "APPROVED" else "REJECTED") =
    ⟨40, "REJECTED"⟩
  rw [hs0, min_eq_left (by norm_num : (0:ℝ) ≤ 3),
    show ((0:ℝ)/3*60+40) = ((40 : ℤ) : ℝ) by push_cast; ring,
    round2_intCast, if_neg (by norm_num : ¬ (70:ℝ) < ((40:ℤ):ℝ))]
  norm_num

/-- One big win (roi 1) and one loss (roi −0.5): a large mean roi, yet the
single negative roi forces score 40 and rejection. -/
def ex9 : List TradeRecord := [⟨1, 2, 1⟩, ⟨1, 1/2, 1⟩]

/-- Claim C9 witness: the two-trade history `ex9`. -/
theorem single_loss_scores_forty_witness :
    ex9 ≠ [] ∧ ¬ 500 < wash_ratio ex9 ∧ (neg_ret ex9).length = 1 ∧
    calculate_score ex9 = ⟨40, "REJECTED"⟩ := by
  have hne : ex9 ≠ [] := by simp [ex9]
  have hw : ¬ 500 < wash_ratio ex9 := by
    have hp : total_pnl ex9 = 1/2 := by norm_num [total_pnl, pnl_of, ex9]
    have habs : |total_pnl ex9| = 1/2 := by
      rw [hp, abs_of_pos (by norm_num)]
    rw [wash_ratio, habs]
    norm_num [total_vol, ex9]
  have hone : (neg_ret ex9).length = 1 := by
    rw [show neg_ret ex9 = [-1/2] by norm_num [neg_ret, rois, roi_of, ex9, List.filter]]
    rfl
  exact ⟨hne, hw, hone, single_loss_scores_forty ex9 hne hw hone⟩

/-! ## Watchlist (src/main.py lines 199-200) -/

/-- A watchlist entry: `{'address': candidate, 'scoreA': score, 'pnl': 0}`. -/
structure Candidate where
  address : String
  scoreA : ℝ
  pnl : ℝ

/-- One approval: `state.watchlist.append(...)` followed by
`if len(state.watchlist) > 8: state.watchlist.pop(0)`. -/
def watchlistApprove (w : List Candidate) (c : Candidate) : List Candidate :=
  let w2 := w ++ [c]
  if 8 < w2.length then w2.tail else w2

/-- Claim C7: starting from at most 8 entries, any sequence of approvals leaves
at most 8 entries, and whenever the list is full (8 or more entries) an
approval drops exactly the head — the earliest-inserted current member — and
appends the new entry at the end, keeping the rest in order. -/
theorem watchlist_cap_and_fifo :
    (∀ init : List Candidate, init.length ≤ 8 →
      ∀ cs : List Candidate, (List.foldl watchlistApprove init cs).length ≤ 8) ∧
    (∀ (w : List Candidate) (c : Candidate), 8 ≤ w.length →
      watchlistApprove w c = w.tail ++ [c]) := by
  constructor
  · intro init hinit cs
    induction cs generalizing init with
    | nil => simpa using hinit
    | cons c cs ih =>
      rw [List.foldl_cons]
      apply ih
      simp only [watchlistApprove]
      split
      · rw [List.length_tail, List.length_append]
        simp only [List.length_singleton]
        omega
      · rename_i hlen
        rw [List.length_append] at hlen ⊢
        simp only [List.length_singleton] at hlen ⊢
        omega
  · intro w c hw
    simp only [watchlistApprove]
    rw [if_pos (by rw [List.length_append]; simp only [List.length_singleton]; omega)]
    cases w with
    | nil => simp at hw
    | cons a as => simp

/-- Nine distinct watchlist entries. -/
def cand : String → Candidate := fun s => ⟨s, 0, 0⟩

/-- A full watchlist of 8 entries. -/
def w8 : List Candidate :=
  [cand "a", cand "b", cand "c", cand "d", cand "e", cand "f", cand "g", cand "h"]

/-- Nine approvals in a row. -/
def cands9 : List Candidate :=
  [cand "a", cand "b", cand "c", cand "d", cand "e", cand "f", cand "g", cand "h", cand "i"]

/-- Claim C7 witness: nine approvals from empty stay within the cap, and the
ninth approval into a full 8-entry list drops the oldest entry. -/
theorem watchlist_cap_and_fifo_witness :
    ((([] : List Candidate).length ≤ 8 ∧
      (List.foldl watchlistApprove [] cands9).length ≤ 8) ∧
     (8 ≤ w8.length ∧ watchlistApprove w8 (cand "i") = w8.tail ++ [cand "i"])) :=
  ⟨⟨by simp, watchlist_cap_and_fifo.1 [] (by simp) cands9⟩,
   ⟨by simp [w8], watchlist_cap_and_fifo.2 w8 (cand "i") (by simp [w8])⟩⟩

/-! ## Position ledger (src/main.py lines 179-188 and 217-228) -/

/-- A position dictionary as appended by the execution phase. -/
structure Position where
  id : String
  market : String
  whale : String
  side : String
  entryPrice : ℚ
  currentPrice : ℚ
  size : ℚ
  pnl : ℚ
  roi : ℚ
  timestamp : ℤ

/-- The per-position mark-to-market body of the engine loop: for a position
whose market matches, set `currentPrice` to the quote, recompute
`pnl = round(shares * price - size, 2)` with `shares = size / entryPrice`, and
`roi = round((price - entryPrice) / entryPrice, 4)`. -/
def markToMarket (price : ℚ) (p : Position) : Position :=
  if p.market = "Trump 2024 Election Winner" then
    { p with
      currentPrice := price,
      pnl := round2 (p.size / p.entryPrice * price - p.size),
      roi := round4 ((price - p.entryPrice) / p.entryPrice) }
  else p

/-- Claim C8: marking to market twice with the same quote price yields the same
`currentPrice`, `pnl` and `roi` as marking once. -/
theorem mark_to_market_idempotent (p : Position) (price : ℚ) :
    (markToMarket price (markToMarket price p)).currentPrice
        = (markToMarket price p).currentPrice ∧
    (markToMarket price (markToMarket price p)).pnl = (markToMarket price p).pnl ∧
    (markToMarket price (markToMarket price p)).roi = (markToMarket price p).roi := by
  unfold markToMarket
  by_cases h : p.market = "Trump 2024 Election Winner"
  · simp [h]
  · simp [h]

/-- The position dictionary appended by the execution phase (lines 217-228):
entry and current price are both the live quote, `pnl` and `roi` start at 0,
and the stored size is `round(size, 2)`. -/
def openPosition (pid whale : String) (ts : ℤ) (price sz : ℚ) : Position :=
  { id := pid, market := "Trump 2024 Election Winner", whale := whale,
    side := "YES", entryPrice := price, currentPrice := price,
    size := round2 sz, pnl := 0, roi := 0, timestamp := ts }

/-- Claim C10: a freshly opened position has `pnl = 0`, `roi = 0` and
`currentPrice = entryPrice` (both the quote price), and marking it to market
against the same (positive) quote keeps `pnl` and `roi` at 0. -/
theorem open_position_flat (pid whale : String) (ts : ℤ) (price sz : ℚ)
    (hp : 0 < price) :
    (openPosition pid whale ts price sz).pnl = 0 ∧
    (openPosition pid whale ts price sz).roi = 0 ∧
    (openPosition pid whale ts price sz).currentPrice
        = (openPosition pid whale ts price sz).entryPrice ∧
    (markToMarket price (openPosition pid whale ts price sz)).pnl = 0 ∧
    (markToMarket price (openPosition pid whale ts price sz)).roi = 0 := by
  have hne : price ≠ 0 := ne_of_gt hp
  refine ⟨rfl, rfl, rfl, ?_, ?_⟩
  · unfold markToMarket openPosition
    rw [if_pos rfl]
    show round2 (round2 sz / price * price - round2 sz) = 0
    rw [div_mul_cancel₀ _ hne, sub_self,
      show (0:ℚ) = ((0:ℤ):ℚ) by norm_num, round2_intCast]
  · unfold markToMarket openPosition
    rw [if_pos rfl]
    show round4 ((price - price) / price) = 0
    rw [sub_self, zero_div,
      show (0:ℚ) = ((0:ℤ):ℚ) by norm_num, round4_intCast]

/-- Claim C10 witness: a position opened at quote price 0.5 with requested
size 100. -/
theorem open_position_flat_witness :
    0 < (1/2 : ℚ) ∧
    ((openPosition "1" "0xabc" 0 (1/2) 100).pnl = 0 ∧
     (openPosition "1" "0xabc" 0 (1/2) 100).roi = 0 ∧
     (openPosition "1" "0xabc" 0 (1/2) 100).currentPrice
         = (openPosition "1" "0xabc" 0 (1/2) 100).entryPrice ∧
     (markToMarket (1/2) (openPosition "1" "0xabc" 0 (1/2) 100)).pnl = 0 ∧
     (markToMarket (1/2) (openPosition "1" "0xabc" 0 (1/2) 100)).roi = 0) :=
  ⟨by norm_num, open_position_flat "1" "0xabc" 0 (1/2) 100 (by norm_num)⟩
